import Mathlib

/-!
# Verification of the nasne-webos content-discovery core

Shallow embedding of the nasne-webos client (`js/nasne-api.js` and the
application script) together with proofs about the claims of its
specification.  JavaScript values are modelled by `JSVal`, JavaScript
exceptions by the `Except String` monad, and the network by explicit
oracle functions.
-/

namespace Nasne

/-- Model of a JavaScript/JSON value as handled by the client. -/
inductive JSVal where
  | undefined : JSVal
  | null : JSVal
  | bool : Bool → JSVal
  | num : Int → JSVal
  | str : String → JSVal
  | arr : List JSVal → JSVal
  | obj : List (String × JSVal) → JSVal

namespace JSVal

/-- JavaScript truthiness (`if (v)`). -/
def truthy : JSVal → Bool
  | .undefined => false
  | .null => false
  | .bool b => b
  | .num n => n != 0
  | .str s => s ≠ ""
  | .arr _ => true
  | .obj _ => true

/-- JavaScript `typeof v === 'object'` (note: `typeof null` is `'object'` in JS). -/
def typeofObject : JSVal → Bool
  | .null => true
  | .arr _ => true
  | .obj _ => true
  | _ => false

/-- JavaScript `Array.isArray(v)`. -/
def isArr : JSVal → Bool
  | .arr _ => true
  | _ => false

/-- First binding of a key in an object's field list. -/
def getField : List (String × JSVal) → String → Option JSVal
  | [], _ => none
  | (k', v) :: rest, k => if k' = k then some v else getField rest k

end JSVal

open JSVal

/-- Property access `v.k`.  Throws a `TypeError` when the receiver is
`null` or `undefined`; yields `undefined` for a missing property and for
primitive receivers (which have no own properties named by the client). -/
def jsGet (v : JSVal) (k : String) : Except String JSVal :=
  match v with
  | .undefined => .error ("TypeError: cannot read properties of undefined (reading " ++ k ++ ")")
  | .null => .error ("TypeError: cannot read properties of null (reading " ++ k ++ ")")
  | .obj fields => .ok ((getField fields k).getD .undefined)
  | _ => .ok .undefined

/-- JavaScript `Object.keys(v)` for the receivers the client feeds it. -/
def jsKeys : JSVal → List String
  | .obj fields => fields.map Prod.fst
  | .arr xs => (List.range xs.length).map (fun i => toString i)
  | .str s => (List.range s.length).map (fun i => toString i)
  | _ => []

/-- Indexed access `v[k]` for a key produced by `Object.keys(v)`. -/
def jsIndex (v : JSVal) (k : String) : Except String JSVal :=
  match v with
  | .arr xs =>
      .ok (((List.range xs.length).findIdx? (fun i => toString i = k)).elim .undefined
        (fun i => xs.getD i .undefined))
  | .str s => .ok (.str (String.mk ((s.data.enum.filter (fun p => toString p.1 = k)).map Prod.snd)))
  | _ => jsGet v k

/-! ## Response Shape Resolver (`extractProgram`, application script) -/

/-- One candidate of the `directPaths` loop of `extractProgram`:
`if (p && typeof p === 'object' && !Array.isArray(p) && (p.title || p.eventId)) return p;`. -/
def checkDirect (p : JSVal) : Except String (Option JSVal) :=
  if p.truthy && p.typeofObject && !p.isArr then do
    let t ← jsGet p "title"
    if t.truthy then pure (some p)
    else do
      let e ← jsGet p "eventId"
      if e.truthy then pure (some p) else pure none
  else pure none

/-- One candidate of the `arrayPaths` loop of `extractProgram`:
`if (Array.isArray(arr) && arr.length > 0) return arr[0];`. -/
def checkArray (a : JSVal) : Except String (Option JSVal) :=
  match a with
  | .arr (x :: _) => pure (some x)
  | _ => pure none

/-- One candidate of the `nestedPaths` loop (under the `channel` key):
`if (Array.isArray(p) && p.length > 0) return p[0];`
`if (p && typeof p === 'object' && (p.title || p.eventId)) return p;`. -/
def checkNested (p : JSVal) : Except String (Option JSVal) :=
  match p with
  | .arr (x :: _) => pure (some x)
  | _ =>
    if p.truthy && p.typeofObject then do
      let t ← jsGet p "title"
      if t.truthy then pure (some p)
      else do
        let e ← jsGet p "eventId"
        if e.truthy then pure (some p) else pure none
    else pure none

/-- Loop `for (const p of candidates)` returning the first hit. -/
def firstHit (f : JSVal → Except String (Option JSVal)) :
    List JSVal → Except String (Option JSVal)
  | [] => pure none
  | p :: rest => do
    match ← f p with
    | some v => pure (some v)
    | none => firstHit f rest

/-- Body of the last-resort key walk of `extractProgram`:
`if (Array.isArray(val) && val.length > 0 && val[0].title) return val[0];`
`if (val && typeof val === 'object' && !Array.isArray(val) && val.title && val.startDateTime) return val;`.
Note `val[0].title` throws when the first element is `null`/`undefined`. -/
def scanKey (result : JSVal) (k : String) : Except String (Option JSVal) := do
  let val ← jsIndex result k
  match val with
  | .arr (x :: _) => do
      let t ← jsGet x "title"
      if t.truthy then pure (some x) else pure none
  | _ =>
      if val.truthy && val.typeofObject && !val.isArr then do
        let t ← jsGet val "title"
        if t.truthy then do
          let s ← jsGet val "startDateTime"
          if s.truthy then pure (some val) else pure none
        else pure none
      else pure none

/-- Loop `for (const key of Object.keys(result))` of the last-resort scan. -/
def scanKeys (result : JSVal) : List String → Except String (Option JSVal)
  | [] => pure none
  | k :: rest => do
    match ← scanKey result k with
    | some v => pure (some v)
    | none => scanKeys result rest

/-- Function `extractProgram(result)` from the application script: heuristically
locates a current-program record in an untyped response payload.  Returns
`JSVal.null` for the not-found sentinel; a `.error` models a thrown
JavaScript exception. -/
def extractProgram (result : JSVal) : Except String JSVal := do
  if !result.truthy then pure .null
  else do
    -- directPaths (the array literal evaluates all four accesses first)
    let d1 ← jsGet result "currentProgram"
    let d2 ← jsGet result "program"
    let d3 ← jsGet result "epgInfo"
    let d4 ← jsGet result "epg"
    match ← firstHit checkDirect [d1, d2, d3, d4] with
    | some v => pure v
    | none => do
      -- arrayPaths
      let a1 ← jsGet result "programs"
      let a2 ← jsGet result "programList"
      let a3 ← jsGet result "epgInfoList"
      let a4 ← jsGet result "item"
      match ← firstHit checkArray [a1, a2, a3, a4] with
      | some v => pure v
      | none => do
        -- nested under 'channel'
        let ch ← jsGet result "channel"
        let nested ←
          if ch.truthy then do
            let n1 ← jsGet ch "currentProgram"
            let n2 ← jsGet ch "program"
            let n3 ← jsGet ch "programs"
            let n4 ← jsGet ch "epgInfo"
            firstHit checkNested [n1, n2, n3, n4]
          else pure none
        match nested with
        | some v => pure v
        | none => do
          -- the result itself looks like a program
          let t ← jsGet result "title"
          let selfHit ←
            if t.truthy then do
              let s ← jsGet result "startDateTime"
              if s.truthy then pure true
              else do
                let du ← jsGet result "duration"
                if du.truthy then pure true
                else do
                  let e ← jsGet result "eventId"
                  pure e.truthy
            else pure false
          if selfHit then pure result
          else do
            -- last resort: walk all top-level keys
            match ← scanKeys result (jsKeys result) with
            | some v => pure v
            | none => pure .null

/-! ## Playback URL resolution (`findVideoUrl` / `playRecording`, application script) -/

/-- The known URL field names checked first by `findVideoUrl`. -/
def urlFields : List String :=
  ["contentUrl", "url", "res", "file", "filePath", "uri", "streamUrl", "resourceUrl"]

/-- Test `value.match(/^https?:\/\//)` of the property walk. -/
def jsHttpRegex (s : String) : Bool :=
  s.startsWith "http://" || s.startsWith "https://"

/-- First loop of `findVideoUrl`: known fields, requiring a truthy string
value that starts with `http`. -/
def scanUrlFields (recording : JSVal) : List String → Except String (Option JSVal)
  | [] => pure none
  | f :: rest => do
    let v ← jsGet recording f
    if v.truthy && (match v with | .str s => s.startsWith "http" | _ => false) then
      pure (some v)
    else scanUrlFields recording rest

/-- JavaScript `Object.entries(v)` for the receivers the client feeds it. -/
def jsEntries : JSVal → List (String × JSVal)
  | .obj fields => fields
  | .arr xs => xs.enum.map (fun p => (toString p.1, p.2))
  | .str s => s.data.enum.map (fun p => (toString p.1, .str (String.mk [p.2])))
  | _ => []

/-- Inner loop of the property walk: one level of nested fields. -/
def scanSubEntries : List (String × JSVal) → Option JSVal
  | [] => none
  | (_, v) :: rest =>
    match v with
    | .str s => if jsHttpRegex s then some (.str s) else scanSubEntries rest
    | _ => scanSubEntries rest

/-- Outer loop of the property walk of `findVideoUrl`: any string property
matching `^https?://`, else one level into non-array object properties. -/
def scanEntries : List (String × JSVal) → Option JSVal
  | [] => none
  | (_, v) :: rest =>
    match v with
    | .str s => if jsHttpRegex s then some (.str s) else scanEntries rest
    | .obj sub =>
        (match scanSubEntries sub with
          | some u => some u
          | none => scanEntries rest)
    | _ => scanEntries rest

/-- Function `findVideoUrl(recording)` from the application script: search the
recording object for any HTTP URL field.  Returns `JSVal.null` when no
URL is found. -/
def findVideoUrl (recording : JSVal) : Except String JSVal := do
  match ← scanUrlFields recording urlFields with
  | some v => pure v
  | none => pure ((scanEntries (jsEntries recording)).getD .null)

/-- Hexadecimal digits used by percent-encoding. -/
def hexDigits : List Char :=
  ['0', '1', '2', '3', '4', '5', '6', '7', '8', '9', 'A', 'B', 'C', 'D', 'E', 'F']

/-- Percent-escape of one byte. -/
def byteHex (b : Nat) : List Char :=
  ['%', hexDigits.getD (b / 16 % 16) '0', hexDigits.getD (b % 16) '0']

/-- UTF-8 bytes of a code point (as `Nat`s). -/
def utf8Bytes (c : Char) : List Nat :=
  let n := c.toNat
  if n < 128 then [n]
  else if n < 2048 then [192 + n / 64, 128 + n % 64]
  else if n < 65536 then [224 + n / 4096, 128 + (n / 64) % 64, 128 + n % 64]
  else [240 + n / 262144, 128 + (n / 4096) % 64, 128 + (n / 64) % 64, 128 + n % 64]

/-- Characters `encodeURIComponent` leaves unescaped
(`A–Z a–z 0–9 - _ . ! ~ * ' ( )`). -/
def uriUnreserved (c : Char) : Bool :=
  c.isAlphanum || c ∈ ['-', '_', '.', '!', '~', '*', '(', ')'] || c.toNat == 39

/-- JavaScript `encodeURIComponent`. -/
def encodeURIComponent (s : String) : String :=
  String.mk (s.data.flatMap fun c =>
    if uriUnreserved c then [c] else (utf8Bytes c).flatMap byteHex)

mutual

/-- JavaScript `String(v)` coercion for the values the client stringifies. -/
def jsToString : JSVal → String
  | .undefined => "undefined"
  | .null => "null"
  | .bool true => "true"
  | .bool false => "false"
  | .num n => toString n
  | .str s => s
  | .arr xs => String.intercalate "," (jsToStringList xs)
  | .obj _ => "[object Object]"

/-- Elementwise stringification of `Array.prototype.toString` (`null` and
`undefined` elements join as empty strings). -/
def jsToStringList : List JSVal → List String
  | [] => []
  | .null :: rest => "" :: jsToStringList rest
  | .undefined :: rest => "" :: jsToStringList rest
  | x :: rest => jsToString x :: jsToStringList rest

end

/-- Outcome of the URL-choice logic of `playRecording`: whether the DLNA
Content Tree Walker (`findDlnaRecording`) was invoked, and the URL handed
to the player (when any). -/
structure PlayAttempt where
  usedDlnaWalker : Bool
  videoUrl : Option String

/-- URL-choice logic of `playRecording(recording)` from the application
script: `findVideoUrl`, then — when that yields nothing and the recording
has a truthy `id` and a device is connected — the constructed
`/recorded/bodyGet` URL.  The source of `playRecording` contains no call
to `findDlnaRecording`, so `usedDlnaWalker` is `false` on every path. -/
def playRecording (ip : String) (connected : Bool) (recording : JSVal) :
    Except String PlayAttempt := do
  let v ← findVideoUrl recording
  -- `findVideoUrl` yields a (truthy) URL string or the null sentinel
  let url0 : Option String := match v with | .str s => some s | _ => none
  match url0 with
  | some s => pure { usedDlnaWalker := false, videoUrl := some s }
  | none => do
      let idv ← jsGet recording "id"
      if idv.truthy && connected then
        pure { usedDlnaWalker := false,
               videoUrl := some ("http://" ++ ip ++ ":64210/recorded/bodyGet?id="
                 ++ encodeURIComponent (jsToString idv)) }
      else pure { usedDlnaWalker := false, videoUrl := none }

/-! ## Content Tree Walker item matching (`_findItemInXml`, nasne-api.js)

`_findItemInXml` scans the decoded DIDL-Lite text with regexes:
`/<item[^>]*>[\s\S]*?<\/item>/g` yields the item blocks in document
order; per block, the first `<dc:title>` gives the (optional) title and
`/<res\s+([^>]*)>([^<]*)<\/res>/g` yields the resource descriptors in
document order, each with an optional `protocolInfo="..."` attribute and
the raw element text (trimmed before use).  The embedding works on that
parsed representation. -/

/-- Character-list prefix test. -/
def listPrefixOf : List Char → List Char → Bool
  | [], _ => true
  | _ :: _, [] => false
  | a :: as, b :: bs => a == b && listPrefixOf as bs

/-- Character-list infix test. -/
def listInfixOf (p : List Char) : List Char → Bool
  | [] => listPrefixOf p []
  | b :: t => listPrefixOf p (b :: t) || listInfixOf p t

/-- JavaScript `a.includes(b)` on strings. -/
def strContains (s sub : String) : Bool := listInfixOf sub.data s.data

/-- Whitespace for JavaScript `String.prototype.trim` (the characters
relevant to this client). -/
def isJsSpace (c : Char) : Bool :=
  c == ' ' || c == '\t' || c == '\n' || c == '\r'
    || c.toNat == 11 || c.toNat == 12 || c.toNat == 160

/-- JavaScript `s.trim()`. -/
def jsTrim (s : String) : String :=
  String.mk (((s.data.dropWhile isJsSpace).reverse.dropWhile isJsSpace).reverse)

/-- One `<res>` element of an item block, as extracted by the resource
regex: the optional `protocolInfo` attribute and the raw URL text. -/
structure DlnaRes where
  protocolInfo : Option String
  rawUrl : String

/-- The result `{url, protocolInfo}` returned by `_findItemInXml`. -/
structure FoundRes where
  url : String
  protocolInfo : String

/-- One `<item>` block: its first `<dc:title>` (when present) and its
`<res>` elements in document order. -/
structure DlnaItem where
  title : Option String
  resources : List DlnaRes

/-- The fuzzy title acceptance of `_findItemInXml`:
`itemTitle === searchTitle || itemTitle.includes(searchTitle) || searchTitle.includes(itemTitle)`. -/
def titleFuzzyMatch (itemTitle searchTitle : String) : Bool :=
  itemTitle == searchTitle || strContains itemTitle searchTitle
    || strContains searchTitle itemTitle

/-- Result `{url: resUrl, protocolInfo}` built from a resource descriptor:
the URL text is trimmed, a missing `protocolInfo` defaults to `''`. -/
def resFound (r : DlnaRes) : FoundRes :=
  { url := jsTrim r.rawUrl, protocolInfo := r.protocolInfo.getD "" }

/-- Test `protocolInfo.includes('video') || resUrl.includes('video')`. -/
def isVideoRes (r : DlnaRes) : Bool :=
  strContains (r.protocolInfo.getD "") "video" || strContains (jsTrim r.rawUrl) "video"

/-- The `while ((resMatch = resRegex.exec(itemXml)))` loop: first
resource carrying a video indicator. -/
def findVideoRes : List DlnaRes → Option DlnaRes
  | [] => none
  | r :: rest => if isVideoRes r then some r else findVideoRes rest

/-- Resource selection for a matched item: a video resource when any
exists, otherwise the first resource, otherwise nothing (and the item
scan continues). -/
def chooseRes (rs : List DlnaRes) : Option FoundRes :=
  match findVideoRes rs with
  | some r => some (resFound r)
  | none =>
    match rs with
    | [] => none
    | r :: _ => some (resFound r)

/-- Function `_findItemInXml(xml, searchTitle)` over the parsed item blocks:
first item (in document order) whose title fuzzily matches and which
yields a resource wins. -/
def findItemInXml (items : List DlnaItem) (searchTitle : String) : Option FoundRes :=
  match items with
  | [] => none
  | item :: rest =>
    match item.title with
    | none => findItemInXml rest searchTitle
    | some itemTitle =>
      if titleFuzzyMatch itemTitle searchTitle then
        match chooseRes item.resources with
        | some f => some f
        | none => findItemInXml rest searchTitle
      else findItemInXml rest searchTitle

/-- An item contributes a result to the scan exactly when its title
fuzzily matches the target and it has at least one resource. -/
def itemYields (i : DlnaItem) (target : String) : Bool :=
  (match i.title with
    | none => false
    | some t => titleFuzzyMatch t target) && !i.resources.isEmpty

/-! ## Transport (`_getPort` / `_buildUrl` / `createReservation`, nasne-api.js) -/

/-- JavaScript `pathname.split('/')` for the single-character separator. -/
def splitSlash : List Char → List (List Char)
  | [] => [[]]
  | c :: t =>
    match splitSlash t with
    | [] => [[]]
    | h :: tl => if c = '/' then [] :: h :: tl else (c :: h) :: tl

/-- The static port mapping `this.ports` of `NasneClient`. -/
def ports : List (String × Nat) :=
  [("status", 64210), ("schedule", 64220), ("recorded", 64220), ("chEpg", 64220)]

/-- Lookup `this.ports[segment] || 64210` (all mapped ports are nonzero, so JS
falsiness reduces to lookup failure). -/
def portOf (seg : List Char) : Nat :=
  match ports.find? (fun p => p.1.data == seg) with
  | some p => p.2
  | none => 64210

/-- Function `_getPort(pathname)`: the port of the path's first segment
(`pathname.split('/')[1]`), defaulting to 64210. -/
def getPort (pathname : String) : Nat :=
  match (splitSlash pathname.data)[1]? with
  | none => 64210
  | some seg => portOf seg

/-- A query parameter survives `_buildUrl`'s
`value !== undefined && value !== null` filter. -/
def keepParam : JSVal → Bool
  | .undefined => false
  | .null => false
  | _ => true

/-- Parameter assembly of `_buildUrl`: entries with `undefined`/`null`
values are omitted, every other value is stringified with `String(value)`
and set on the query string. -/
def buildQueryPairs (params : List (String × JSVal)) : List (String × String) :=
  (params.filter (fun p => keepParam p.2)).map (fun p => (p.1, jsToString p.2))

/-- The `params` record accepted by `createReservation` (absent fields
are `undefined`). -/
structure ReservationParams where
  title : Option String
  startDateTime : Option String
  duration : Option Int
  serviceId : Option Int
  broadcastingType : Option Int
  eventId : Option Int
  conditionId : Option String
  quality : Option Int

/-- JavaScript `x || d` for an optional string (`undefined` and `''` are
falsy). -/
def jsOrStr (v : Option String) (d : String) : String :=
  match v with
  | none => d
  | some s => if s = "" then d else s

/-- JavaScript `x || d` for an optional number (`undefined` and `0` are
falsy). -/
def jsOrNum (v : Option Int) (d : Int) : Int :=
  match v with
  | none => d
  | some n => if n = 0 then d else n

/-- An optional string field as the JS value it holds. -/
def optStrVal : Option String → JSVal
  | none => .undefined
  | some s => .str s

/-- An optional number field as the JS value it holds. -/
def optNumVal : Option Int → JSVal
  | none => .undefined
  | some n => .num n

/-- The `queryParams` object assembled by `createReservation(params)`:
defaults `title || ''`, `conditionId || '1'`, `quality || 100`; `eventId`
is appended only when truthy. -/
def createReservationQuery (params : ReservationParams) : List (String × JSVal) :=
  [("title", .str (jsOrStr params.title "")),
   ("startDateTime", optStrVal params.startDateTime),
   ("duration", optNumVal params.duration),
   ("serviceId", optNumVal params.serviceId),
   ("broadcastingType", optNumVal params.broadcastingType),
   ("conditionId", .str (jsOrStr params.conditionId "1")),
   ("quality", .num (jsOrNum params.quality 100))]
  ++ (match params.eventId with
      | some e => if e ≠ 0 then [("eventId", .num e)] else []
      | none => [])

/-! ## Transport requests and DLNA discovery (`_get`, `discoverDlnaPort`,
`findDlnaRecording`, nasne-api.js) -/

/-- An HTTP response as seen by the client: `ok`, `status`, `statusText`,
the body text, and the parsed JSON body (`none` models a body that
`response.json()` rejects). -/
structure HttpResponse where
  ok : Bool
  status : Nat
  statusText : String
  body : String
  json : Option JSVal

/-- A network oracle: the outcome of `fetch(url)` for every URL.  An
`.error` models a rejected fetch — connection failure or a timeout
(`AbortSignal.timeout` rejects the promise). -/
def Network := String → Except String HttpResponse

/-- Function `_buildUrl(pathname, params)`: scheme, host, the port selected by
`_getPort`, the path and the kept query pairs (query-string escaping is
modelled with `encodeURIComponent`). -/
def buildUrl (ip pathname : String) (params : List (String × JSVal)) : String :=
  let pairs := buildQueryPairs params
  let base := "http://" ++ ip ++ ":" ++ toString (getPort pathname) ++ pathname
  match pairs with
  | [] => base
  | _ => base ++ "?" ++ String.intercalate "&"
      (pairs.map (fun p => p.1 ++ "=" ++ encodeURIComponent p.2))

/-- Message of the error thrown by `_get` on a non-success status:
`nasne API error: ${response.status} ${response.statusText}`. -/
def apiErrorMsg (status : Nat) (statusText : String) : String :=
  "nasne API error: " ++ toString status ++ " " ++ statusText

/-- Function `_get(pathname, params)`: issue the request and decode JSON.  A
rejected fetch propagates; a non-success status throws an error carrying
the status code; an unparsable body rejects inside `response.json()`. -/
def apiGet (net : Network) (ip pathname : String)
    (params : List (String × JSVal)) : Except String JSVal :=
  match net (buildUrl ip pathname params) with
  | .error e => .error e
  | .ok resp =>
    if !resp.ok then .error (apiErrorMsg resp.status resp.statusText)
    else
      match resp.json with
      | some j => .ok j
      | none => .error "SyntaxError: unexpected end of JSON input"

/-- JavaScript `try { x } catch (e) { h(e) }`. -/
def tryCatchE {α : Type} (x : Except String α) (h : String → Except String α) :
    Except String α :=
  match x with
  | .ok a => .ok a
  | .error e => h e

/-- The fixed candidate DLNA ports of `discoverDlnaPort`. -/
def knownPorts : List Nat := [58888, 60888, 55888, 50888, 2869, 8200]

/-- Marker test `text.includes('ContentDirectory') || text.includes('MediaServer')`. -/
def dlnaMarkers (text : String) : Bool :=
  strContains text "ContentDirectory" || strContains text "MediaServer"

/-- One probe of `discoverDlnaPort`: fetch the description document and
check the marker substrings; any thrown error is caught and the loop
continues (`catch (e) { /* try next */ }`). -/
def probeDesc (net : Network) (ip : String) (port : Nat) (path : String) :
    Except String (Option (Nat × String)) :=
  tryCatchE
    (match net ("http://" ++ ip ++ ":" ++ toString port ++ path) with
      | .error e => .error e
      | .ok resp =>
        if resp.ok then
          if dlnaMarkers resp.body then .ok (some (port, resp.body)) else .ok none
        else .ok none)
    (fun _ => .ok none)

/-- First loop of `discoverDlnaPort`: `/description.xml` on each
candidate port, first success short-circuits. -/
def probeLoop1 (net : Network) (ip : String) :
    List Nat → Except String (Option (Nat × String))
  | [] => .ok none
  | p :: rest =>
    match probeDesc net ip p "/description.xml" with
    | .error e => .error e
    | .ok (some r) => .ok (some r)
    | .ok none => probeLoop1 net ip rest

/-- Alternate description-document paths of the second loop. -/
def altPaths : List String := ["/MediaServer.xml", "/rootDesc.xml", "/dmr.xml"]

/-- Inner loop of the second pass: the alternate paths on one port. -/
def probePaths (net : Network) (ip : String) (port : Nat) :
    List String → Except String (Option (Nat × String))
  | [] => .ok none
  | path :: rest =>
    match probeDesc net ip port path with
    | .error e => .error e
    | .ok (some r) => .ok (some r)
    | .ok none => probePaths net ip port rest

/-- Second loop of `discoverDlnaPort`: the alternate paths on each port. -/
def probeLoop2 (net : Network) (ip : String) :
    List Nat → Except String (Option (Nat × String))
  | [] => .ok none
  | p :: rest =>
    match probePaths net ip p altPaths with
    | .error e => .error e
    | .ok (some r) => .ok (some r)
    | .ok none => probeLoop2 net ip rest

/-- Function `discoverDlnaPort()`: probe every candidate port with the canonical
path, then with the alternate paths; yields the discovered port and
description XML (the session cache), `none` when every combination
fails. -/
def discoverDlnaPort (net : Network) (ip : String) :
    Except String (Option (Nat × String)) :=
  match probeLoop1 net ip knownPorts with
  | .error e => .error e
  | .ok (some r) => .ok (some r)
  | .ok none => probeLoop2 net ip knownPorts

/-- Success condition of one discovery probe: the fetch resolves, the
response is `ok` and the body carries a marker substring.  Its negation
characterizes a failed probe (rejected/timed-out fetch, non-success
status, or no marker). -/
def probeHit (net : Network) (ip : String) (port : Nat) (path : String) : Bool :=
  match net ("http://" ++ ip ++ ":" ++ toString port ++ path) with
  | .error _ => false
  | .ok resp => resp.ok && dlnaMarkers resp.body

/-- A parsed DIDL-Lite level as produced by the extraction regexes of
`_extractContainerIds` and `_findItemInXml` over the entity-decoded
browse response: the container entries (id, title) and the item blocks.
The regex scans of the source are total string functions — they never
throw — so the embedding works on their parsed output, supplied per
container id by the browse oracle. -/
structure DidlLevel where
  containers : List (String × String)
  items : List DlnaItem

/-- Browse oracle: outcome of `browseDlnaContent(objectId)`.  An
`.error` models a thrown error — a missing control URL, a rejected SOAP
POST, or the `DLNA Browse failed` error thrown on a non-success
status. -/
def BrowseNet := String → Except String DidlLevel

/-- The `for (const sub of subContainers)` loop: search each container,
first hit short-circuits. -/
def searchLoop (f : String → Except String (Option FoundRes)) :
    List (String × String) → Except String (Option FoundRes)
  | [] => .ok none
  | c :: rest =>
    match f c.1 with
    | .error e => .error e
    | .ok (some r) => .ok (some r)
    | .ok none => searchLoop f rest

/-- Function `_searchContainer(containerId, title)`: browse the container, look
for a matching item, then recurse into sub-containers; every error —
including the stack exhaustion of the unbounded recursion, modelled by
`fuel = 0` — is caught by the surrounding `try/catch` and turned into
the `null` sentinel. -/
def searchContainer (browse : BrowseNet) (title : String) :
    Nat → String → Except String (Option FoundRes)
  | 0, _ => .error "RangeError: maximum call stack size exceeded"
  | fuel + 1, containerId =>
    tryCatchE
      (match browse containerId with
        | .error e => .error e
        | .ok level =>
          match findItemInXml level.items title with
          | some f => .ok (some f)
          | none => searchLoop (searchContainer browse title fuel) level.containers)
      (fun _ => .ok none)

/-- Function `findDlnaRecording(title)`: ensure a DLNA port is discovered, browse
the root container `'0'`, search each root container recursively, then
scan the root level itself; the whole body sits in one `try/catch` whose
handler returns the `null` sentinel. -/
def findDlnaRecording (net : Network) (browse : BrowseNet) (ip : String)
    (cache : Option (Nat × String)) (fuel : Nat) (title : String) :
    Except String (Option FoundRes) :=
  tryCatchE
    (match (match cache with
            | some c => Except.ok (some c)
            | none => discoverDlnaPort net ip) with
      | .error e => .error e
      | .ok none => .ok none
      | .ok (some _) =>
        match browse "0" with
        | .error e => .error e
        | .ok rootLevel =>
          match searchLoop (searchContainer browse title fuel) rootLevel.containers with
          | .error e => .error e
          | .ok (some r) => .ok (some r)
          | .ok none =>
            match findItemInXml rootLevel.items title with
            | some f => .ok (some f)
            | none => .ok none)
    (fun _ => .ok none)

/-! ## XML entity decoding (`_decodeXmlEntities`, nasne-api.js) -/

/-- JavaScript `s.replace(/pat/g, rep)` for a non-empty literal pattern:
left-to-right, non-overlapping, the replacement text is not rescanned. -/
def replaceAll (p r : List Char) : List Char → List Char
  | [] => []
  | c :: t =>
    if listPrefixOf p (c :: t) && !p.isEmpty then
      r ++ replaceAll p r (t.drop (p.length - 1))
    else c :: replaceAll p r t
termination_by l => l.length
decreasing_by
  · simp only [List.length_drop, List.length_cons]
    omega
  · simp only [List.length_cons]
    omega

/-- Function `_decodeXmlEntities(xml)`: the five global replacements in source
order — `&lt;`, `&gt;`, `&amp;`, `&quot;`, `&apos;`. -/
def decodeXmlEntities (xml : String) : String :=
  String.mk
    (replaceAll "&apos;".data "'".data
      (replaceAll "&quot;".data "\"".data
        (replaceAll "&amp;".data "&".data
          (replaceAll "&gt;".data ">".data
            (replaceAll "&lt;".data "<".data xml.data)))))

/-- Single-level XML-entity escaping as described by the claim (this one
definition follows the claim's words, not the repository: the ampersand
is escaped first, then `<`, `>`, `"` and `'`, each as a global
replacement). -/
def encodeXmlEntities (s : String) : String :=
  String.mk
    (replaceAll "'".data "&apos;".data
      (replaceAll "\"".data "&quot;".data
        (replaceAll ">".data "&gt;".data
          (replaceAll "<".data "&lt;".data
            (replaceAll "&".data "&amp;".data s.data)))))

/-- The double-quote character. -/
def qc : Char := Char.ofNat 34

/-- The apostrophe character. -/
def ac : Char := Char.ofNat 39

/-- Entity text of one XML special character. -/
def entityFor (c : Char) : List Char :=
  if c = '&' then "&amp;".data
  else if c = '<' then "&lt;".data
  else if c = '>' then "&gt;".data
  else if c = qc then "&quot;".data
  else if c = ac then "&apos;".data
  else [c]

/-- Per-character block of an encoding state: the specials in `special`
expand to their entities, every other character stands for itself. -/
def entityBlock (special : List Char) (c : Char) : List Char :=
  if c ∈ special then entityFor c else [c]

/-- A block `b` on which a pattern `p` can never match, regardless of
what follows: `p` does not match at the block's start (no mutual prefix)
and no interior position of the block carries the pattern's head. -/
def blockSafe : List Char → List Char → Bool
  | _, [] => false
  | [], _ => false
  | a :: p', y :: ys =>
    !listPrefixOf (a :: p') (y :: ys) && !listPrefixOf (y :: ys) (a :: p')
      && ys.all (fun x => !(x == a))

/-! ## Theorems -/

/-- C1: for every response payload with no `currentProgram` key, whose
`program` key holds a non-array object with a (non-empty) title, and whose
`programs` key holds a non-empty array whose first element is an object
with a different title, `extractProgram` returns the object under the
`program` key: direct-object candidates outrank array candidates and the
first matching candidate in the priority list wins. -/
theorem extractProgram_direct_priority
    (fields pf yf : List (String × JSVal)) (ys : List JSVal) (t t' : String)
    (hcp : getField fields "currentProgram" = none)
    (hp : getField fields "program" = some (.obj pf))
    (ht : getField pf "title" = some (.str t)) (htne : t ≠ "")
    (_hps : getField fields "programs" = some (.arr (.obj yf :: ys)))
    (_ht' : getField yf "title" = some (.str t')) (_hdiff : t' ≠ t) :
    extractProgram (.obj fields) = .ok (.obj pf) := by
  simp [extractProgram, jsGet, firstHit, checkDirect, JSVal.truthy,
    JSVal.typeofObject, JSVal.isArr, hcp, hp, ht, htne,
    Bind.bind, Except.bind, Pure.pure, Except.pure]

/-- C1 witness: the theorem applied at a concrete payload. -/
theorem extractProgram_direct_priority_witness :
    extractProgram (.obj [("program", .obj [("title", .str "A")]),
      ("programs", .arr [.obj [("title", .str "B")]])]) = .ok (.obj [("title", .str "A")]) :=
  extractProgram_direct_priority
    [("program", .obj [("title", .str "A")]), ("programs", .arr [.obj [("title", .str "B")]])]
    [("title", .str "A")] [("title", .str "B")] [] "A" "B"
    rfl rfl rfl (by decide) rfl rfl (by decide)

/-- C2: the claim that no input shape makes `extractProgram` raise is
contradicted by the code: on `{foo: [null]}` the last-resort key walk
evaluates `val[0].title` with `val[0] === null` and throws a `TypeError`
instead of returning the not-found sentinel. -/
theorem extractProgram_throws_on_null_array_element :
    extractProgram (.obj [("foo", .arr [JSVal.null])])
      = .error "TypeError: cannot read properties of null (reading title)" := rfl

/-- C5 counterexample: the last-resort scan does NOT require a time-like
field for array candidates.  On `{foo: [{title: "X"}]}` (no recognized
key) `extractProgram` returns the array's first element although it
carries no `startDateTime`, `endDateTime`, `duration` or `eventId`. -/
theorem extractProgram_scan_array_no_time_cex :
    extractProgram (.obj [("foo", .arr [.obj [("title", .str "X")]])])
        = .ok (.obj [("title", .str "X")]) ∧
      getField [("title", JSVal.str "X")] "startDateTime" = none ∧
      getField [("title", JSVal.str "X")] "endDateTime" = none ∧
      getField [("title", JSVal.str "X")] "duration" = none ∧
      getField [("title", JSVal.str "X")] "eventId" = none :=
  ⟨rfl, rfl, rfl, rfl, rfl⟩

/-- C5 (amended): in the last-resort scan over the top-level keys of a
payload with no recognized key, a top-level object value is returned only
when it has both a (truthy) title and a `startDateTime`, while the first
element of a top-level array value is returned as soon as it has a truthy
title — no time-like field is required for the array branch; in
particular the nested object of `{foo: {title: "X", startDateTime: ...}}`
is returned. -/
theorem extractProgram_lastResort_scan
    (k : String) (hk : k ∉ ["currentProgram", "program", "epgInfo", "epg",
      "programs", "programList", "epgInfoList", "item", "channel", "title"]) :
    (∀ (xf : List (String × JSVal)) (xs : List JSVal) (t : String), t ≠ "" →
      getField xf "title" = some (.str t) →
      extractProgram (.obj [(k, .arr (.obj xf :: xs))]) = .ok (.obj xf)) ∧
    (∀ (vf : List (String × JSVal)) (t s : String), t ≠ "" → s ≠ "" →
      getField vf "title" = some (.str t) →
      getField vf "startDateTime" = some (.str s) →
      extractProgram (.obj [(k, .obj vf)]) = .ok (.obj vf)) ∧
    (∀ (vf : List (String × JSVal)) (t : String), t ≠ "" →
      getField vf "title" = some (.str t) →
      getField vf "startDateTime" = none →
      extractProgram (.obj [(k, .obj vf)]) = .ok JSVal.null) := by
  simp only [List.mem_cons, List.mem_singleton, not_or] at hk
  obtain ⟨h1, h2, h3, h4, h5, h6, h7, h8, h9, h10, -⟩ := hk
  refine ⟨?_, ?_, ?_⟩
  · intro xf xs t htne ht
    simp [extractProgram, jsGet, jsIndex, jsKeys, firstHit, checkDirect, checkArray,
      scanKeys, scanKey, getField, JSVal.truthy, JSVal.typeofObject, JSVal.isArr,
      h1, h2, h3, h4, h5, h6, h7, h8, h9, h10, ht, htne,
      Bind.bind, Except.bind, Pure.pure, Except.pure]
  · intro vf t s htne hsne ht hs
    simp [extractProgram, jsGet, jsIndex, jsKeys, firstHit, checkDirect, checkArray,
      scanKeys, scanKey, getField, JSVal.truthy, JSVal.typeofObject, JSVal.isArr,
      h1, h2, h3, h4, h5, h6, h7, h8, h9, h10, ht, hs, htne, hsne,
      Bind.bind, Except.bind, Pure.pure, Except.pure]
  · intro vf t htne ht hs
    simp [extractProgram, jsGet, jsIndex, jsKeys, firstHit, checkDirect, checkArray,
      scanKeys, scanKey, getField, JSVal.truthy, JSVal.typeofObject, JSVal.isArr,
      h1, h2, h3, h4, h5, h6, h7, h8, h9, h10, ht, hs, htne,
      Bind.bind, Except.bind, Pure.pure, Except.pure]

/-- C5 witness: the amended scan behaviour at concrete payloads. -/
theorem extractProgram_lastResort_scan_witness :
    extractProgram (.obj [("bar", .arr [.obj [("title", .str "Y")]])])
        = .ok (.obj [("title", .str "Y")]) ∧
      extractProgram (.obj [("foo", .obj [("title", .str "X"), ("startDateTime", .str "s")])])
        = .ok (.obj [("title", .str "X"), ("startDateTime", .str "s")]) ∧
      extractProgram (.obj [("foo", .obj [("title", .str "X")])]) = .ok JSVal.null :=
  ⟨(extractProgram_lastResort_scan "bar" (by decide)).1
      [("title", .str "Y")] [] "Y" (by decide) rfl,
    (extractProgram_lastResort_scan "foo" (by decide)).2.1
      [("title", .str "X"), ("startDateTime", .str "s")] "X" "s"
      (by decide) (by decide) rfl rfl,
    (extractProgram_lastResort_scan "foo" (by decide)).2.2
      [("title", .str "X")] "X" (by decide) rfl rfl⟩

/-- C3 counterexample: for the recording `{id: "rec1", title: "T"}` —
whose payload contains no usable URL (`findVideoUrl` yields the null
sentinel) — `playRecording` jumps straight to the constructed
`/recorded/bodyGet` URL without ever invoking the Content Tree Walker
(`findDlnaRecording` is not called anywhere in `playRecording`), contrary
to the claimed search-then-construct order. -/
theorem playRecording_skips_dlna_walker_cex :
    findVideoUrl (.obj [("id", .str "rec1"), ("title", .str "T")]) = .ok JSVal.null ∧
      playRecording "192.168.1.10" true (.obj [("id", .str "rec1"), ("title", .str "T")])
        = .ok { usedDlnaWalker := false,
                videoUrl := some "http://192.168.1.10:64210/recorded/bodyGet?id=rec1" } :=
  ⟨rfl, rfl⟩

/-- C3 (amended): for every recording whose payload contains no usable
URL, `playRecording` does NOT invoke the Content Tree Walker; it falls
back directly to the constructed URL built from the known retrieval path
template and the recording's (truthy) identifier, and yields no URL at
all when the identifier is also absent. -/
theorem playRecording_fallback (ip : String) (recording : JSVal) (idv : JSVal)
    (hurl : findVideoUrl recording = .ok JSVal.null)
    (hid : jsGet recording "id" = .ok idv) :
    (idv.truthy = true →
      playRecording ip true recording
        = .ok { usedDlnaWalker := false,
                videoUrl := some ("http://" ++ ip ++ ":64210/recorded/bodyGet?id="
                  ++ encodeURIComponent (jsToString idv)) }) ∧
    (idv.truthy = false →
      playRecording ip true recording
        = .ok { usedDlnaWalker := false, videoUrl := none }) := by
  constructor
  · intro htr
    simp [playRecording, hurl, hid, htr, Bind.bind, Except.bind, Pure.pure, Except.pure]
  · intro hfa
    simp [playRecording, hurl, hid, hfa, Bind.bind, Except.bind, Pure.pure, Except.pure]

/-- C3 witness: the amended fallback applied at concrete recordings. -/
theorem playRecording_fallback_witness :
    playRecording "10.0.0.5" true (.obj [("id", .str "ab"), ("title", .str "T")])
        = .ok { usedDlnaWalker := false,
                videoUrl := some "http://10.0.0.5:64210/recorded/bodyGet?id=ab" } ∧
      playRecording "10.0.0.5" true (.obj [("title", .str "T")])
        = .ok { usedDlnaWalker := false, videoUrl := none } :=
  ⟨(playRecording_fallback "10.0.0.5" (.obj [("id", .str "ab"), ("title", .str "T")])
      (.str "ab") rfl rfl).1 rfl,
    (playRecording_fallback "10.0.0.5" (.obj [("title", .str "T")])
      .undefined rfl rfl).2 rfl⟩

/-! ### Helper lemmas for the item scan -/

theorem chooseRes_cons (r0 : DlnaRes) (rs : List DlnaRes) :
    ∃ f, chooseRes (r0 :: rs) = some f := by
  unfold chooseRes
  cases h : findVideoRes (r0 :: rs) <;> simp

theorem findItemInXml_cons (i : DlnaItem) (rest : List DlnaItem) (target : String) :
    findItemInXml (i :: rest) target =
      if itemYields i target then chooseRes i.resources
      else findItemInXml rest target := by
  rcases i with ⟨title, resources⟩
  cases title with
  | none => simp [findItemInXml, itemYields]
  | some t =>
    by_cases hm : titleFuzzyMatch t target
    · cases resources with
      | nil => simp [findItemInXml, itemYields, hm, chooseRes, findVideoRes]
      | cons r0 rs =>
          obtain ⟨f, hf⟩ := chooseRes_cons r0 rs
          simp [findItemInXml, itemYields, hm, hf]
    · simp [findItemInXml, itemYields, hm]

theorem findVideoRes_some_of_exists (rs : List DlnaRes)
    (h : ∃ r ∈ rs, isVideoRes r = true) :
    ∃ r, findVideoRes rs = some r ∧ isVideoRes r = true := by
  induction rs with
  | nil => simp at h
  | cons a l ih =>
      by_cases ha : isVideoRes a = true
      · exact ⟨a, by simp [findVideoRes, ha], ha⟩
      · obtain ⟨r, hmem, hv⟩ := h
        rcases List.mem_cons.mp hmem with rfl | hl
        · exact absurd hv ha
        · obtain ⟨r', h1, h2⟩ := ih ⟨r, hl, hv⟩
          exact ⟨r', by simp [findVideoRes, ha, h1], h2⟩

theorem findVideoRes_none_of_all (rs : List DlnaRes)
    (h : ∀ r ∈ rs, isVideoRes r = false) : findVideoRes rs = none := by
  induction rs with
  | nil => rfl
  | cons a l ih =>
      simp [findVideoRes, h a (List.mem_cons_self a l),
        ih (fun r hr => h r (List.mem_cons_of_mem a hr))]

/-- C4 counterexample: with the target `"Drama"`, a listing whose first
item is titled `"Drama Special"` (a substring match only) and whose
second item is titled exactly `"Drama"` makes `_findItemInXml` return the
first item's resource: exact title equality is NOT preferred over
substring matches, the first fuzzy hit in document order wins. -/
theorem findItemInXml_no_exact_preference_cex :
    findItemInXml
        [{ title := some "Drama Special",
           resources := [{ protocolInfo := some "p1", rawUrl := "u1" }] },
         { title := some "Drama",
           resources := [{ protocolInfo := some "p2", rawUrl := "u2" }] }]
        "Drama"
      = some { url := "u1", protocolInfo := "p1" } ∧
      ("Drama Special" == "Drama") = false ∧
      ("Drama" == "Drama") = true ∧
      ({ url := "u1", protocolInfo := "p1" } : FoundRes)
        ≠ resFound { protocolInfo := some "p2", rawUrl := "u2" } := by
  refine ⟨rfl, rfl, rfl, ?_⟩
  intro h
  have := congrArg FoundRes.url h
  simp [resFound] at this
  exact absurd this (by decide)

/-- C4 (amended): an item matches the search target exactly when its
title equals the target, the target contains the item title, or the item
title contains the target; among several candidates the one returned is
the FIRST item in document order whose title matches and which has at
least one resource — an exactly-equal title is not preferred over
substring matches. -/
theorem findItemInXml_first_hit_wins (pre : List DlnaItem) (item : DlnaItem)
    (rest : List DlnaItem) (target : String)
    (hpre : ∀ i ∈ pre, itemYields i target = false)
    (hy : itemYields item target = true) :
    findItemInXml (pre ++ item :: rest) target = chooseRes item.resources ∧
      ∃ f, chooseRes item.resources = some f := by
  have key : findItemInXml (pre ++ item :: rest) target = chooseRes item.resources := by
    induction pre with
    | nil => simp [findItemInXml_cons, hy]
    | cons i pre ih =>
        have hi := hpre i (List.mem_cons_self i pre)
        have hih := ih (fun j hj => hpre j (List.mem_cons_of_mem i hj))
        simp [findItemInXml_cons, hi, hih]
  refine ⟨key, ?_⟩
  obtain ⟨r0, rs, hr⟩ : ∃ r0 rs, item.resources = r0 :: rs := by
    rcases h : item.resources with _ | ⟨r0, rs⟩
    · rw [itemYields, h] at hy; simp at hy
    · exact ⟨r0, rs, rfl⟩
  rw [hr]
  exact chooseRes_cons r0 rs

/-- C4 witness: the first fuzzy hit at a concrete listing. -/
theorem findItemInXml_first_hit_wins_witness :
    findItemInXml
        [{ title := some "News", resources := [] },
         { title := some "Drama Special",
           resources := [{ protocolInfo := none, rawUrl := "u" }] }]
        "Drama"
      = chooseRes [{ protocolInfo := none, rawUrl := "u" }] ∧
      ∃ f, chooseRes [({ protocolInfo := none, rawUrl := "u" } : DlnaRes)] = some f :=
  findItemInXml_first_hit_wins
    [{ title := some "News", resources := [] }]
    { title := some "Drama Special", resources := [{ protocolInfo := none, rawUrl := "u" }] }
    [] "Drama" (by decide) (by decide)

/-- C6: for a matched item, when any of its resources carries a video
indicator in its `protocolInfo` or URL, the returned resource carries a
video indicator (even when it is not listed first); when no resource
does, the item's first resource is returned. -/
theorem findItemInXml_prefers_video (item : DlnaItem) (rest : List DlnaItem)
    (target t : String) (ht : item.title = some t)
    (hm : titleFuzzyMatch t target = true) :
    ((∃ r ∈ item.resources, isVideoRes r = true) →
      ∃ f, findItemInXml (item :: rest) target = some f ∧
        (strContains f.protocolInfo "video" || strContains f.url "video") = true) ∧
    (∀ r0 rs, item.resources = r0 :: rs →
      (∀ r ∈ item.resources, isVideoRes r = false) →
      findItemInXml (item :: rest) target = some (resFound r0)) := by
  constructor
  · intro hex
    obtain ⟨r, hfv, hv⟩ := findVideoRes_some_of_exists item.resources hex
    refine ⟨resFound r, ?_, ?_⟩
    · rcases item with ⟨title, resources⟩
      simp only at ht hfv ⊢
      subst ht
      simp [findItemInXml, hm, chooseRes, hfv]
    · simpa [resFound, isVideoRes] using hv
  · intro r0 rs hr hall
    have hnone := findVideoRes_none_of_all item.resources hall
    rcases item with ⟨title, resources⟩
    simp only at ht hr hnone ⊢
    subst ht
    subst hr
    simp [findItemInXml, hm, chooseRes, hnone]

/-- C6 witness: a video resource listed second is returned; with no video
indicator anywhere the first resource is returned. -/
theorem findItemInXml_prefers_video_witness :
    (∃ f, findItemInXml
        [{ title := some "T",
           resources := [{ protocolInfo := some "http-get:*:audio/mpeg:*", rawUrl := "u1" },
             { protocolInfo := some "http-get:*:video/mpeg:*", rawUrl := "u2" }] }]
        "T" = some f ∧
      (strContains f.protocolInfo "video" || strContains f.url "video") = true) ∧
      findItemInXml
        [{ title := some "T",
           resources := [{ protocolInfo := some "http-get:*:audio/mpeg:*", rawUrl := "u1" },
             { protocolInfo := some "http-get:*:audio/aac:*", rawUrl := "u2" }] }]
        "T" = some (resFound { protocolInfo := some "http-get:*:audio/mpeg:*", rawUrl := "u1" }) :=
  ⟨(findItemInXml_prefers_video
      { title := some "T",
        resources := [{ protocolInfo := some "http-get:*:audio/mpeg:*", rawUrl := "u1" },
          { protocolInfo := some "http-get:*:video/mpeg:*", rawUrl := "u2" }] }
      [] "T" "T" rfl (by decide)).1 (by decide),
    (findItemInXml_prefers_video
      { title := some "T",
        resources := [{ protocolInfo := some "http-get:*:audio/mpeg:*", rawUrl := "u1" },
          { protocolInfo := some "http-get:*:audio/aac:*", rawUrl := "u2" }] }
      [] "T" "T" rfl (by decide)).2
      { protocolInfo := some "http-get:*:audio/mpeg:*", rawUrl := "u1" }
      [{ protocolInfo := some "http-get:*:audio/aac:*", rawUrl := "u2" }] rfl (by decide)⟩

/-! ### Helper lemmas for path splitting -/

theorem splitSlash_ne_nil (l : List Char) : splitSlash l ≠ [] := by
  cases l with
  | nil => simp [splitSlash]
  | cons c t =>
    rw [splitSlash]
    rcases h : splitSlash t with _ | ⟨hd, tl⟩
    · simp
    · by_cases hc : c = '/' <;> simp [hc]

theorem splitSlash_slash (l : List Char) :
    splitSlash ('/' :: l) = [] :: splitSlash l := by
  rw [splitSlash]
  rcases h : splitSlash l with _ | ⟨hd, tl⟩
  · exact absurd h (splitSlash_ne_nil l)
  · simp

theorem splitSlash_seg (seg : List Char) (hseg : ∀ c ∈ seg, c ≠ '/')
    (r : List Char) : splitSlash (seg ++ '/' :: r) = seg :: splitSlash r := by
  induction seg with
  | nil => simpa using splitSlash_slash r
  | cons c cs ih =>
    have hc : c ≠ '/' := hseg c (List.mem_cons_self c cs)
    have ih' := ih (fun x hx => hseg x (List.mem_cons_of_mem c hx))
    rw [List.cons_append, splitSlash, ih']
    simp [hc]

theorem getPort_gen (seg rest : String) (hseg : ∀ c ∈ seg.data, c ≠ '/') :
    getPort ("/" ++ seg ++ "/" ++ rest) = portOf seg.data := by
  have hdata : ("/" ++ seg ++ "/" ++ rest).data
      = '/' :: (seg.data ++ '/' :: rest.data) := by
    show ("/".data ++ seg.data ++ "/".data ++ rest.data)
        = '/' :: (seg.data ++ '/' :: rest.data)
    simp
  rw [getPort, hdata, splitSlash_slash, splitSlash_seg seg.data hseg rest.data]
  simp [portOf]

/-- C9 counterexample: the port lookup keys on the EXACT first segment,
so the `chEpg`-prefixed segment `chEpgList` falls through to the default
port 64210, not to 64220 as claimed for chEpg-prefixed segments. -/
theorem getPort_chEpg_prefix_cex :
    getPort "/chEpgList/get" = 64210 ∧
      listPrefixOf "chEpg".data "chEpgList".data = true ∧
      64210 ≠ 64220 :=
  ⟨rfl, rfl, by decide⟩

/-- C9 (amended): the port map keys on the exact first path segment:
`status` maps to 64210; `schedule`, `recorded` and the exact segment
`chEpg` map to 64220; every other first segment — including longer
`chEpg`-prefixed segments — defaults to 64210. -/
theorem getPort_segment_mapping :
    (∀ rest : String, getPort ("/status/" ++ rest) = 64210) ∧
    (∀ rest : String, getPort ("/schedule/" ++ rest) = 64220) ∧
    (∀ rest : String, getPort ("/recorded/" ++ rest) = 64220) ∧
    (∀ rest : String, getPort ("/chEpg/" ++ rest) = 64220) ∧
    (∀ seg rest : String, (∀ c ∈ seg.data, c ≠ '/') →
      seg ∉ (["status", "schedule", "recorded", "chEpg"] : List String) →
      getPort ("/" ++ seg ++ "/" ++ rest) = 64210) := by
  refine ⟨?_, ?_, ?_, ?_, ?_⟩
  · intro rest
    have h := getPort_gen "status" rest (by decide)
    simpa using h
  · intro rest
    have h := getPort_gen "schedule" rest (by decide)
    simpa using h
  · intro rest
    have h := getPort_gen "recorded" rest (by decide)
    simpa using h
  · intro rest
    have h := getPort_gen "chEpg" rest (by decide)
    simpa using h
  · intro seg rest hseg hmem
    rw [getPort_gen seg rest hseg]
    have hfind : ports.find? (fun p => p.1.data == seg.data) = none := by
      rw [List.find?_eq_none]
      intro x hx
      simp only [List.mem_cons, not_or] at hmem
      obtain ⟨h1, h2, h3, h4, -⟩ := hmem
      have d1 : ¬ ("status".data = seg.data) := fun h => h1 (String.ext h.symm)
      have d2 : ¬ ("schedule".data = seg.data) := fun h => h2 (String.ext h.symm)
      have d3 : ¬ ("recorded".data = seg.data) := fun h => h3 (String.ext h.symm)
      have d4 : ¬ ("chEpg".data = seg.data) := fun h => h4 (String.ext h.symm)
      fin_cases hx <;> simp only [beq_iff_eq] <;>
        first
        | exact d1
        | exact d2
        | exact d3
        | exact d4
    simp [portOf, hfind]

/-- C9 witness: the mapping at concrete paths and an unrecognized
segment. -/
theorem getPort_segment_mapping_witness :
    getPort ("/status/" ++ "channelListGet") = 64210 ∧
      getPort ("/schedule/" ++ "reservedListGet") = 64220 ∧
      getPort ("/recorded/" ++ "titleListGet") = 64220 ∧
      getPort ("/chEpg/" ++ "get") = 64220 ∧
      getPort ("/" ++ "foo" ++ "/" ++ "bar") = 64210 :=
  ⟨getPort_segment_mapping.1 "channelListGet",
    getPort_segment_mapping.2.1 "reservedListGet",
    getPort_segment_mapping.2.2.1 "titleListGet",
    getPort_segment_mapping.2.2.2.1 "get",
    getPort_segment_mapping.2.2.2.2 "foo" "bar" (by decide) (by decide)⟩

/-- C8: a `createReservation` call that sets only `eventId` (no explicit
title, startDateTime, duration, conditionId or quality) issues a request
whose query pairs contain `eventId`, the default `conditionId = "1"` and
the default `quality = 100`, while the undefined `startDateTime` and
`duration` do not appear in the query at all. -/
theorem createReservation_eventId_defaults
    (sid bt : Option Int) (e : Int) (he : e ≠ 0) :
    ("eventId", toString e) ∈ buildQueryPairs (createReservationQuery
        { title := none, startDateTime := none, duration := none,
          serviceId := sid, broadcastingType := bt, eventId := some e,
          conditionId := none, quality := none }) ∧
    ("conditionId", "1") ∈ buildQueryPairs (createReservationQuery
        { title := none, startDateTime := none, duration := none,
          serviceId := sid, broadcastingType := bt, eventId := some e,
          conditionId := none, quality := none }) ∧
    ("quality", "100") ∈ buildQueryPairs (createReservationQuery
        { title := none, startDateTime := none, duration := none,
          serviceId := sid, broadcastingType := bt, eventId := some e,
          conditionId := none, quality := none }) ∧
    "startDateTime" ∉ (buildQueryPairs (createReservationQuery
        { title := none, startDateTime := none, duration := none,
          serviceId := sid, broadcastingType := bt, eventId := some e,
          conditionId := none, quality := none })).map Prod.fst ∧
    "duration" ∉ (buildQueryPairs (createReservationQuery
        { title := none, startDateTime := none, duration := none,
          serviceId := sid, broadcastingType := bt, eventId := some e,
          conditionId := none, quality := none })).map Prod.fst := by
  cases sid <;> cases bt <;>
    simp [buildQueryPairs, createReservationQuery, jsOrStr, jsOrNum,
      optStrVal, optNumVal, keepParam, jsToString, he] <;> rfl

/-- C8 witness: the defaults at a concrete eventId-only call. -/
theorem createReservation_eventId_defaults_witness :
    ("eventId", toString (123 : Int)) ∈ buildQueryPairs (createReservationQuery
        { title := none, startDateTime := none, duration := none,
          serviceId := some 1, broadcastingType := some 2, eventId := some 123,
          conditionId := none, quality := none }) ∧
      ("conditionId", "1") ∈ buildQueryPairs (createReservationQuery
        { title := none, startDateTime := none, duration := none,
          serviceId := some 1, broadcastingType := some 2, eventId := some 123,
          conditionId := none, quality := none }) :=
  ⟨(createReservation_eventId_defaults (some 1) (some 2) 123 (by decide)).1,
    (createReservation_eventId_defaults (some 1) (some 2) 123 (by decide)).2.1⟩

/-! ### Helper lemmas for the error-channel split -/

theorem tryCatchE_isOk {α : Type} (x : Except String α)
    (h : String → Except String α) (hh : ∀ e, ∃ a, h e = .ok a) :
    ∃ a, tryCatchE x h = .ok a := by
  cases x with
  | ok a => exact ⟨a, rfl⟩
  | error e => simpa [tryCatchE] using hh e

theorem probeDesc_isOk (net : Network) (ip : String) (port : Nat) (path : String) :
    ∃ r, probeDesc net ip port path = .ok r :=
  tryCatchE_isOk _ _ (fun _ => ⟨none, rfl⟩)

theorem probeLoop1_isOk (net : Network) (ip : String) (l : List Nat) :
    ∃ r, probeLoop1 net ip l = .ok r := by
  induction l with
  | nil => exact ⟨none, rfl⟩
  | cons p rest ih =>
    obtain ⟨r, hr⟩ := probeDesc_isOk net ip p "/description.xml"
    cases r with
    | some v => exact ⟨some v, by simp [probeLoop1, hr]⟩
    | none =>
      obtain ⟨r', hr'⟩ := ih
      exact ⟨r', by simp [probeLoop1, hr, hr']⟩

theorem probePaths_isOk (net : Network) (ip : String) (port : Nat) (l : List String) :
    ∃ r, probePaths net ip port l = .ok r := by
  induction l with
  | nil => exact ⟨none, rfl⟩
  | cons path rest ih =>
    obtain ⟨r, hr⟩ := probeDesc_isOk net ip port path
    cases r with
    | some v => exact ⟨some v, by simp [probePaths, hr]⟩
    | none =>
      obtain ⟨r', hr'⟩ := ih
      exact ⟨r', by simp [probePaths, hr, hr']⟩

theorem probeLoop2_isOk (net : Network) (ip : String) (l : List Nat) :
    ∃ r, probeLoop2 net ip l = .ok r := by
  induction l with
  | nil => exact ⟨none, rfl⟩
  | cons p rest ih =>
    obtain ⟨r, hr⟩ := probePaths_isOk net ip p altPaths
    cases r with
    | some v => exact ⟨some v, by simp [probeLoop2, hr]⟩
    | none =>
      obtain ⟨r', hr'⟩ := ih
      exact ⟨r', by simp [probeLoop2, hr, hr']⟩

theorem probeDesc_miss (net : Network) (ip : String) (port : Nat) (path : String)
    (h : probeHit net ip port path = false) :
    probeDesc net ip port path = .ok none := by
  rw [probeHit] at h
  rw [probeDesc]
  cases hnet : net ("http://" ++ ip ++ ":" ++ toString port ++ path) with
  | error e => simp [hnet, tryCatchE]
  | ok resp =>
    rw [hnet] at h
    simp only [Bool.and_eq_false_iff] at h
    rcases h with h | h <;> simp [hnet, tryCatchE, h]

theorem probeLoop1_allMiss (net : Network) (ip : String) (l : List Nat)
    (h : ∀ p ∈ l, probeHit net ip p "/description.xml" = false) :
    probeLoop1 net ip l = .ok none := by
  induction l with
  | nil => rfl
  | cons p rest ih =>
    rw [probeLoop1, probeDesc_miss net ip p _ (h p (List.mem_cons_self p rest))]
    exact ih (fun q hq => h q (List.mem_cons_of_mem p hq))

theorem probePaths_allMiss (net : Network) (ip : String) (port : Nat)
    (l : List String) (h : ∀ path ∈ l, probeHit net ip port path = false) :
    probePaths net ip port l = .ok none := by
  induction l with
  | nil => rfl
  | cons path rest ih =>
    rw [probePaths, probeDesc_miss net ip port path (h path (List.mem_cons_self path rest))]
    exact ih (fun q hq => h q (List.mem_cons_of_mem path hq))

theorem probeLoop2_allMiss (net : Network) (ip : String) (l : List Nat)
    (h : ∀ p ∈ l, ∀ path ∈ altPaths, probeHit net ip p path = false) :
    probeLoop2 net ip l = .ok none := by
  induction l with
  | nil => rfl
  | cons p rest ih =>
    rw [probeLoop2, probePaths_allMiss net ip p altPaths (h p (List.mem_cons_self p rest))]
    exact ih (fun q hq => h q (List.mem_cons_of_mem p hq))

theorem discoverDlnaPort_allMiss (net : Network) (ip : String)
    (h1 : ∀ p ∈ knownPorts, probeHit net ip p "/description.xml" = false)
    (h2 : ∀ p ∈ knownPorts, ∀ path ∈ altPaths, probeHit net ip p path = false) :
    discoverDlnaPort net ip = .ok none := by
  rw [discoverDlnaPort, probeLoop1_allMiss net ip knownPorts h1]
  exact probeLoop2_allMiss net ip knownPorts h2

theorem listPrefixOf_append (l t : List Char) : listPrefixOf l (l ++ t) = true := by
  induction l with
  | nil => rfl
  | cons a as ih => simp [listPrefixOf, ih]

theorem listInfixOf_of_prefixOf (p l : List Char) (h : listPrefixOf p l = true) :
    listInfixOf p l = true := by
  cases l with
  | nil => simpa [listInfixOf] using h
  | cons b t => simp [listInfixOf, h]

theorem listInfixOf_append_left (p pre t : List Char)
    (h : listInfixOf p t = true) : listInfixOf p (pre ++ t) = true := by
  induction pre with
  | nil => simpa using h
  | cons a rest ih => simp [listInfixOf, ih]

theorem apiErrorMsg_contains_status (status : Nat) (statusText : String) :
    strContains (apiErrorMsg status statusText) (toString status) = true := by
  have hdata : (apiErrorMsg status statusText).data
      = "nasne API error: ".data
        ++ ((toString status).data ++ (" ".data ++ statusText.data)) := by
    show ((("nasne API error: ".data ++ (toString status).data) ++ " ".data)
        ++ statusText.data) = _
    simp [List.append_assoc]
  show listInfixOf (toString status).data (apiErrorMsg status statusText).data = true
  rw [hdata]
  exact listInfixOf_append_left _ _ _
    (listInfixOf_of_prefixOf _ _ (listPrefixOf_append _ _))

/-- C7: failure surfacing splits exactly along the Transport / heuristic
boundary: `_get` raises on a rejected fetch (propagating the failure) and
on a non-success status (with the status code contained in the raised
message), while `discoverDlnaPort` and `findDlnaRecording` never raise
for any network/browse outcome, and every discovery or search failure —
all ports and paths exhausted without a marker hit, a browse error at the
root or inside the walk, or the search exhausting the catalog without a
match — yields the not-found sentinel `none` (parse anomalies live in the
browse oracle, whose erroring outcomes are covered here). -/
theorem transport_error_split (ip : String) :
    (∀ (net : Network) (pathname : String) (params : List (String × JSVal)) (e : String),
      net (buildUrl ip pathname params) = .error e →
      apiGet net ip pathname params = .error e) ∧
    (∀ (net : Network) (pathname : String) (params : List (String × JSVal))
        (resp : HttpResponse),
      net (buildUrl ip pathname params) = .ok resp → resp.ok = false →
      apiGet net ip pathname params
          = .error (apiErrorMsg resp.status resp.statusText) ∧
        strContains (apiErrorMsg resp.status resp.statusText)
          (toString resp.status) = true) ∧
    (∀ net : Network, ∃ r, discoverDlnaPort net ip = .ok r) ∧
    (∀ net : Network,
      (∀ p ∈ knownPorts, probeHit net ip p "/description.xml" = false) →
      (∀ p ∈ knownPorts, ∀ path ∈ altPaths, probeHit net ip p path = false) →
      discoverDlnaPort net ip = .ok none) ∧
    (∀ (net : Network) (browse : BrowseNet) (cache : Option (Nat × String))
        (fuel : Nat) (title : String),
      ∃ r, findDlnaRecording net browse ip cache fuel title = .ok r) ∧
    (∀ (net : Network) (browse : BrowseNet) (fuel : Nat) (title : String),
      ((∀ p ∈ knownPorts, probeHit net ip p "/description.xml" = false) →
        (∀ p ∈ knownPorts, ∀ path ∈ altPaths, probeHit net ip p path = false) →
        findDlnaRecording net browse ip none fuel title = .ok none) ∧
      (∀ (cache0 : Nat × String) (e : String), browse "0" = .error e →
        findDlnaRecording net browse ip (some cache0) fuel title = .ok none) ∧
      (∀ (cache0 : Nat × String) (root : DidlLevel), browse "0" = .ok root →
        searchLoop (searchContainer browse title fuel) root.containers = .ok none →
        findItemInXml root.items title = none →
        findDlnaRecording net browse ip (some cache0) fuel title = .ok none) ∧
      (∀ (cid : String) (e : String), browse cid = .error e →
        searchContainer browse title (fuel + 1) cid = .ok none)) := by
  refine ⟨?_, ?_, ?_, ?_, ?_, ?_⟩
  · intro net pathname params e he
    simp [apiGet, he]
  · intro net pathname params resp hresp hok
    refine ⟨by simp [apiGet, hresp, hok], apiErrorMsg_contains_status _ _⟩
  · intro net
    obtain ⟨r, hr⟩ := probeLoop1_isOk net ip knownPorts
    cases r with
    | some v => exact ⟨some v, by simp [discoverDlnaPort, hr]⟩
    | none =>
      obtain ⟨r', hr'⟩ := probeLoop2_isOk net ip knownPorts
      exact ⟨r', by simp [discoverDlnaPort, hr, hr']⟩
  · intro net h1 h2
    exact discoverDlnaPort_allMiss net ip h1 h2
  · intro net browse cache fuel title
    exact tryCatchE_isOk _ _ (fun _ => ⟨none, rfl⟩)
  · intro net browse fuel title
    refine ⟨?_, ?_, ?_, ?_⟩
    · intro h1 h2
      rw [findDlnaRecording, discoverDlnaPort_allMiss net ip h1 h2]
      rfl
    · intro cache0 e hb
      rw [findDlnaRecording, hb]
      rfl
    · intro cache0 root hb hloop hitems
      rw [findDlnaRecording, hb]
      simp [tryCatchE, hloop, hitems]
    · intro cid e hb
      rw [searchContainer, hb]
      rfl

/-- C7 witness: the split at concrete oracles — a rejected fetch, a 404
response, a network where every DLNA probe fails (yielding the `none`
sentinel), an erroring browse at the root and inside the walk, and an
empty catalog exhausted without a match, all yielding the sentinel. -/
theorem transport_error_split_witness :
    apiGet (fun _ => .error "TypeError: Failed to fetch")
        "192.168.0.2" "/status/boxStatusListGet" []
        = .error "TypeError: Failed to fetch" ∧
      apiGet (fun _ => .ok { ok := false, status := 404, statusText := "Not Found",
                             body := "", json := none })
        "192.168.0.2" "/status/boxStatusListGet" []
        = .error (apiErrorMsg 404 "Not Found") ∧
      strContains (apiErrorMsg 404 "Not Found") (toString 404) = true ∧
      (∃ r, discoverDlnaPort (fun _ => .error "timeout") "192.168.0.2" = .ok r) ∧
      discoverDlnaPort (fun _ => .error "timeout") "192.168.0.2" = .ok none ∧
      (∃ r, findDlnaRecording (fun _ => .error "timeout")
        (fun _ => .error "DLNA Browse failed: 500") "192.168.0.2" none 3 "T" = .ok r) ∧
      findDlnaRecording (fun _ => .error "timeout")
        (fun _ => .error "DLNA Browse failed: 500") "192.168.0.2" none 3 "T" = .ok none ∧
      findDlnaRecording (fun _ => .error "timeout")
        (fun _ => .error "DLNA Browse failed: 500") "192.168.0.2"
        (some (58888, "xml")) 3 "T" = .ok none ∧
      findDlnaRecording (fun _ => .error "timeout")
        (fun _ => .ok { containers := [], items := [] }) "192.168.0.2"
        (some (58888, "xml")) 3 "T" = .ok none ∧
      searchContainer (fun _ => .error "DLNA Browse failed: 500") "T" 3 "1" = .ok none :=
  ⟨(transport_error_split "192.168.0.2").1 (fun _ => .error "TypeError: Failed to fetch")
      "/status/boxStatusListGet" [] "TypeError: Failed to fetch" rfl,
    ((transport_error_split "192.168.0.2").2.1
      (fun _ => .ok { ok := false, status := 404, statusText := "Not Found",
                      body := "", json := none })
      "/status/boxStatusListGet" []
      { ok := false, status := 404, statusText := "Not Found", body := "", json := none }
      rfl rfl).1,
    ((transport_error_split "192.168.0.2").2.1
      (fun _ => .ok { ok := false, status := 404, statusText := "Not Found",
                      body := "", json := none })
      "/status/boxStatusListGet" []
      { ok := false, status := 404, statusText := "Not Found", body := "", json := none }
      rfl rfl).2,
    (transport_error_split "192.168.0.2").2.2.1 (fun _ => .error "timeout"),
    (transport_error_split "192.168.0.2").2.2.2.1 (fun _ => .error "timeout")
      (by decide) (by decide),
    (transport_error_split "192.168.0.2").2.2.2.2.1 (fun _ => .error "timeout")
      (fun _ => .error "DLNA Browse failed: 500") none 3 "T",
    ((transport_error_split "192.168.0.2").2.2.2.2.2 (fun _ => .error "timeout")
      (fun _ => .error "DLNA Browse failed: 500") 3 "T").1 (by decide) (by decide),
    ((transport_error_split "192.168.0.2").2.2.2.2.2 (fun _ => .error "timeout")
      (fun _ => .error "DLNA Browse failed: 500") 3 "T").2.1
      (58888, "xml") "DLNA Browse failed: 500" rfl,
    ((transport_error_split "192.168.0.2").2.2.2.2.2 (fun _ => .error "timeout")
      (fun _ => .ok { containers := [], items := [] }) 3 "T").2.2.1
      (58888, "xml") { containers := [], items := [] } rfl rfl rfl,
    ((transport_error_split "192.168.0.2").2.2.2.2.2 (fun _ => .error "timeout")
      (fun _ => .error "DLNA Browse failed: 500") 2 "T").2.2.2
      "1" "DLNA Browse failed: 500" rfl⟩

/-! ### Helper lemmas for the entity decoder -/

theorem listPrefixOf_nil_left (l : List Char) : listPrefixOf [] l = true := by
  cases l <;> rfl

theorem replaceAll_pos (p r t : List Char) (hp : p ≠ []) :
    replaceAll p r (p ++ t) = r ++ replaceAll p r t := by
  rcases p with _ | ⟨a, as⟩
  · exact absurd rfl hp
  · rw [List.cons_append, replaceAll]
    have hpre : listPrefixOf (a :: as) (a :: (as ++ t)) = true := by
      simpa using listPrefixOf_append (a :: as) t
    simp only [hpre, List.isEmpty_cons, Bool.not_false, Bool.and_self, if_true,
      List.length_cons, Nat.add_sub_cancel, List.drop_left]

theorem replaceAll_neg (p r : List Char) (c : Char) (t : List Char)
    (h : listPrefixOf p (c :: t) = false) :
    replaceAll p r (c :: t) = c :: replaceAll p r t := by
  rw [replaceAll]
  simp [h]

theorem listPrefixOf_append_cases (b : List Char) : ∀ (p t : List Char),
    listPrefixOf p (b ++ t) = true →
    listPrefixOf p b = true ∨ listPrefixOf b p = true := by
  induction b with
  | nil => exact fun p t _ => Or.inr (listPrefixOf_nil_left p)
  | cons x b' ih =>
    intro p t h
    cases p with
    | nil => exact Or.inl rfl
    | cons a p' =>
      rw [List.cons_append, listPrefixOf] at h
      simp only [Bool.and_eq_true, beq_iff_eq] at h
      obtain ⟨hax, h'⟩ := h
      rcases ih p' t h' with h1 | h1
      · left
        rw [listPrefixOf]
        simp [hax, h1]
      · right
        rw [listPrefixOf]
        simp [hax.symm, h1]

theorem replaceAll_skip (r : List Char) (a : Char) (p' : List Char) :
    ∀ (l t : List Char), (∀ x ∈ l, x ≠ a) →
    replaceAll (a :: p') r (l ++ t) = l ++ replaceAll (a :: p') r t := by
  intro l
  induction l with
  | nil => intro t _; rfl
  | cons x l' ih =>
    intro t hl
    have hx : x ≠ a := hl x (List.mem_cons_self x l')
    have hax : (a == x) = false := by
      simp only [beq_eq_false_iff_ne, ne_eq]
      exact fun h => hx h.symm
    have hpre : listPrefixOf (a :: p') (x :: (l' ++ t)) = false := by
      rw [listPrefixOf, hax, Bool.false_and]
    rw [List.cons_append, replaceAll_neg _ _ _ _ hpre,
      ih t (fun y hy => hl y (List.mem_cons_of_mem x hy)), List.cons_append]

theorem replaceAll_safe (p r b t : List Char) (hb : blockSafe p b = true) :
    replaceAll p r (b ++ t) = b ++ replaceAll p r t := by
  rcases b with _ | ⟨y, ys⟩
  · simp [blockSafe] at hb
  · rcases p with _ | ⟨a, p'⟩
    · simp [blockSafe] at hb
    · rw [blockSafe] at hb
      simp only [Bool.and_eq_true, Bool.not_eq_true', List.all_eq_true] at hb
      obtain ⟨⟨hpb, hbp⟩, hys⟩ := hb
      have h0 : listPrefixOf (a :: p') (y :: (ys ++ t)) = false := by
        cases h : listPrefixOf (a :: p') (y :: (ys ++ t)) with
        | false => rfl
        | true =>
          rw [show y :: (ys ++ t) = (y :: ys) ++ t from rfl] at h
          rcases listPrefixOf_append_cases (y :: ys) (a :: p') t h with h1 | h1
          · rw [h1] at hpb; cases hpb
          · rw [h1] at hbp; cases hbp
      rw [List.cons_append, replaceAll_neg _ _ _ _ h0]
      have hskip := replaceAll_skip r a p' ys t (by
        intro x hx
        have := hys x hx
        simpa [beq_eq_false_iff_ne] using this)
      rw [hskip]
      rfl

theorem replaceAll_flatMap_strong (p r : List Char) (hp : p ≠ [])
    (B B' : Char → List Char)
    (h : ∀ c, (B c = p ∧ B' c = r) ∨ (blockSafe p (B c) = true ∧ B' c = B c)) :
    ∀ s : List Char, replaceAll p r (s.flatMap B) = s.flatMap B' := by
  intro s
  induction s with
  | nil => simp [replaceAll]
  | cons c s' ih =>
    rw [List.flatMap_cons, List.flatMap_cons]
    rcases h c with ⟨hBc, hB'c⟩ | ⟨hsafe, hB'c⟩
    · rw [hBc, replaceAll_pos p r _ hp, ih, hB'c]
    · rw [replaceAll_safe p r _ _ hsafe, ih, hB'c]

theorem listPrefixOf_flatMap_transfer (B : Char → List Char)
    (h0 : ∀ c, B c ≠ []) :
    ∀ w : List Char, (∀ a ∈ w, B a = [a]) →
    (∀ a ∈ w, ∀ c y ys, B c = y :: ys → y = a → c = a) →
    ∀ s : List Char, listPrefixOf w (s.flatMap B) = listPrefixOf w s := by
  intro w
  induction w with
  | nil => intro _ _ s; rw [listPrefixOf_nil_left, listPrefixOf_nil_left]
  | cons a w' ih =>
    intro h1 h2 s
    cases s with
    | nil => simp [listPrefixOf]
    | cons c s' =>
      rw [List.flatMap_cons]
      by_cases hc : c = a
      · subst hc
        rw [h1 c (List.mem_cons_self c w'), List.singleton_append,
          listPrefixOf, listPrefixOf,
          ih (fun x hx => h1 x (List.mem_cons_of_mem c hx))
            (fun x hx => h2 x (List.mem_cons_of_mem c hx)) s']
      · rcases hBc : B c with _ | ⟨y, ys⟩
        · exact absurd hBc (h0 c)
        · have hya : (a == y) = false := by
            simp only [beq_eq_false_iff_ne, ne_eq]
            intro hay
            exact hc (h2 a (List.mem_cons_self a w') c y ys hBc hay.symm)
          have hac : (a == c) = false := by
            simp only [beq_eq_false_iff_ne, ne_eq]
            exact fun hac => hc hac.symm
          rw [List.cons_append, listPrefixOf, listPrefixOf, hya, hac,
            Bool.false_and, Bool.false_and]

theorem replaceAll_flatMap_guarded (c0 : Char) (w r : List Char)
    (B B' : Char → List Char)
    (h : ∀ c, (B c = c0 :: w ∧ B' c = r)
          ∨ (blockSafe (c0 :: w) (B c) = true ∧ B' c = B c)
          ∨ (c = c0 ∧ B c = [c] ∧ B' c = [c]))
    (htr : ∀ s : List Char, listPrefixOf w (s.flatMap B) = listPrefixOf w s) :
    ∀ s : List Char, listInfixOf (c0 :: w) s = false →
    replaceAll (c0 :: w) r (s.flatMap B) = s.flatMap B' := by
  intro s
  induction s with
  | nil => intro _; simp [replaceAll]
  | cons c s' ih =>
    intro hinf
    rw [listInfixOf] at hinf
    simp only [Bool.or_eq_false_iff] at hinf
    obtain ⟨hpre, hinf'⟩ := hinf
    rw [List.flatMap_cons, List.flatMap_cons]
    rcases h c with ⟨hBc, hB'c⟩ | ⟨hsafe, hB'c⟩ | ⟨hc0, hBc, hB'c⟩
    · rw [hBc, replaceAll_pos _ _ _ (by simp), ih hinf', hB'c]
    · rw [replaceAll_safe _ _ _ _ hsafe, ih hinf', hB'c]
    · subst hc0
      rw [hBc, hB'c]
      have hwfalse : listPrefixOf w s' = false := by
        rw [listPrefixOf] at hpre
        simpa using hpre
      have hnomatch : listPrefixOf (c :: w) (c :: (s'.flatMap B)) = false := by
        rw [listPrefixOf, htr s', hwfalse, Bool.and_false]
      rw [List.singleton_append, List.singleton_append,
        replaceAll_neg _ _ _ _ hnomatch, ih hinf']

theorem flatMap_entityBlock_nil :
    ∀ s : List Char, s.flatMap (entityBlock []) = s := by
  intro s
  induction s with
  | nil => rfl
  | cons c s' ih =>
    rw [List.flatMap_cons, ih]
    simp [entityBlock]

theorem entityFor_ne_nil (c : Char) : entityFor c ≠ [] := by
  rw [entityFor]
  repeat' split
  all_goals simp

theorem entityBlock_ne_nil (special : List Char) (c : Char) :
    entityBlock special c ≠ [] := by
  rw [entityBlock]
  split
  · exact entityFor_ne_nil c
  · simp

theorem passE1 (s : List Char) :
    replaceAll "&".data "&amp;".data (s.flatMap (entityBlock []))
      = s.flatMap (entityBlock ['&']) := by
  apply replaceAll_flatMap_strong _ _ (by decide)
  intro c
  by_cases h1 : c = '&'
  · subst h1
    left
    exact ⟨by decide, by decide⟩
  · right
    have hb : entityBlock [] c = [c] := by simp [entityBlock]
    have hb' : entityBlock ['&'] c = [c] := by simp [entityBlock, h1]
    rw [hb, hb']
    refine ⟨?_, rfl⟩
    show blockSafe ['&'] [c] = true
    rw [blockSafe]
    simp [listPrefixOf, listPrefixOf_nil_left, beq_iff_eq, h1, Ne.symm h1]

theorem passE2 (s : List Char) :
    replaceAll "<".data "&lt;".data (s.flatMap (entityBlock ['&']))
      = s.flatMap (entityBlock ['&', '<']) := by
  apply replaceAll_flatMap_strong _ _ (by decide)
  intro c
  by_cases h1 : c = '&'
  · subst h1
    right
    exact ⟨by decide, by decide⟩
  · by_cases h2 : c = '<'
    · subst h2
      left
      exact ⟨by decide, by decide⟩
    · right
      have hb : entityBlock ['&'] c = [c] := by simp [entityBlock, h1]
      have hb' : entityBlock ['&', '<'] c = [c] := by simp [entityBlock, h1, h2]
      rw [hb, hb']
      refine ⟨?_, rfl⟩
      show blockSafe ['<'] [c] = true
      rw [blockSafe]
      simp [listPrefixOf, listPrefixOf_nil_left, beq_iff_eq, h2, Ne.symm h2]

theorem passE3 (s : List Char) :
    replaceAll ">".data "&gt;".data (s.flatMap (entityBlock ['&', '<']))
      = s.flatMap (entityBlock ['&', '<', '>']) := by
  apply replaceAll_flatMap_strong _ _ (by decide)
  intro c
  by_cases h1 : c = '&'
  · subst h1
    right
    exact ⟨by decide, by decide⟩
  · by_cases h2 : c = '<'
    · subst h2
      right
      exact ⟨by decide, by decide⟩
    · by_cases h3 : c = '>'
      · subst h3
        left
        exact ⟨by decide, by decide⟩
      · right
        have hb : entityBlock ['&', '<'] c = [c] := by simp [entityBlock, h1, h2]
        have hb' : entityBlock ['&', '<', '>'] c = [c] := by
          simp [entityBlock, h1, h2, h3]
        rw [hb, hb']
        refine ⟨?_, rfl⟩
        show blockSafe ['>'] [c] = true
        rw [blockSafe]
        simp [listPrefixOf, listPrefixOf_nil_left, beq_iff_eq, h3, Ne.symm h3]

theorem passE4 (s : List Char) :
    replaceAll "\"".data "&quot;".data (s.flatMap (entityBlock ['&', '<', '>']))
      = s.flatMap (entityBlock ['&', '<', '>', qc]) := by
  apply replaceAll_flatMap_strong _ _ (by decide)
  intro c
  by_cases h1 : c = '&'
  · subst h1
    right
    exact ⟨by decide, by decide⟩
  · by_cases h2 : c = '<'
    · subst h2
      right
      exact ⟨by decide, by decide⟩
    · by_cases h3 : c = '>'
      · subst h3
        right
        exact ⟨by decide, by decide⟩
      · by_cases h4 : c = qc
        · subst h4
          left
          exact ⟨by decide, by decide⟩
        · right
          have hb : entityBlock ['&', '<', '>'] c = [c] := by
            simp [entityBlock, h1, h2, h3]
          have hb' : entityBlock ['&', '<', '>', qc] c = [c] := by
            simp [entityBlock, h1, h2, h3, h4]
          rw [hb, hb']
          refine ⟨?_, rfl⟩
          show blockSafe [qc] [c] = true
          rw [blockSafe]
          simp [listPrefixOf, listPrefixOf_nil_left, beq_iff_eq, h4, Ne.symm h4]

theorem passE5 (s : List Char) :
    replaceAll "'".data "&apos;".data (s.flatMap (entityBlock ['&', '<', '>', qc]))
      = s.flatMap (entityBlock ['&', '<', '>', qc, ac]) := by
  apply replaceAll_flatMap_strong _ _ (by decide)
  intro c
  by_cases h1 : c = '&'
  · subst h1
    right
    exact ⟨by decide, by decide⟩
  · by_cases h2 : c = '<'
    · subst h2
      right
      exact ⟨by decide, by decide⟩
    · by_cases h3 : c = '>'
      · subst h3
        right
        exact ⟨by decide, by decide⟩
      · by_cases h4 : c = qc
        · subst h4
          right
          exact ⟨by decide, by decide⟩
        · by_cases h5 : c = ac
          · subst h5
            left
            exact ⟨by decide, by decide⟩
          · right
            have hb : entityBlock ['&', '<', '>', qc] c = [c] := by
              simp [entityBlock, h1, h2, h3, h4]
            have hb' : entityBlock ['&', '<', '>', qc, ac] c = [c] := by
              simp [entityBlock, h1, h2, h3, h4, h5]
            rw [hb, hb']
            refine ⟨?_, rfl⟩
            show blockSafe [ac] [c] = true
            rw [blockSafe]
            simp [listPrefixOf, listPrefixOf_nil_left, beq_iff_eq, h5, Ne.symm h5]

theorem passD1 (s : List Char) :
    replaceAll "&lt;".data "<".data (s.flatMap (entityBlock ['&', '<', '>', qc, ac]))
      = s.flatMap (entityBlock ['&', '>', qc, ac]) := by
  apply replaceAll_flatMap_strong _ _ (by decide)
  intro c
  by_cases h1 : c = '&'
  · subst h1
    right
    exact ⟨by decide, by decide⟩
  · by_cases h2 : c = '<'
    · subst h2
      left
      exact ⟨by decide, by decide⟩
    · by_cases h3 : c = '>'
      · subst h3
        right
        exact ⟨by decide, by decide⟩
      · by_cases h4 : c = qc
        · subst h4
          right
          exact ⟨by decide, by decide⟩
        · by_cases h5 : c = ac
          · subst h5
            right
            exact ⟨by decide, by decide⟩
          · right
            have hb : entityBlock ['&', '<', '>', qc, ac] c = [c] := by
              simp [entityBlock, h1, h2, h3, h4, h5]
            have hb' : entityBlock ['&', '>', qc, ac] c = [c] := by
              simp [entityBlock, h1, h3, h4, h5]
            rw [hb, hb']
            refine ⟨?_, rfl⟩
            show blockSafe ['&', 'l', 't', ';'] [c] = true
            rw [blockSafe]
            simp [listPrefixOf, listPrefixOf_nil_left, beq_iff_eq, h1, Ne.symm h1]

theorem passD2 (s : List Char) :
    replaceAll "&gt;".data ">".data (s.flatMap (entityBlock ['&', '>', qc, ac]))
      = s.flatMap (entityBlock ['&', qc, ac]) := by
  apply replaceAll_flatMap_strong _ _ (by decide)
  intro c
  by_cases h1 : c = '&'
  · subst h1
    right
    exact ⟨by decide, by decide⟩
  · by_cases h3 : c = '>'
    · subst h3
      left
      exact ⟨by decide, by decide⟩
    · by_cases h4 : c = qc
      · subst h4
        right
        exact ⟨by decide, by decide⟩
      · by_cases h5 : c = ac
        · subst h5
          right
          exact ⟨by decide, by decide⟩
        · right
          have hb : entityBlock ['&', '>', qc, ac] c = [c] := by
            simp [entityBlock, h1, h3, h4, h5]
          have hb' : entityBlock ['&', qc, ac] c = [c] := by
            simp [entityBlock, h1, h4, h5]
          rw [hb, hb']
          refine ⟨?_, rfl⟩
          show blockSafe ['&', 'g', 't', ';'] [c] = true
          rw [blockSafe]
          simp [listPrefixOf, listPrefixOf_nil_left, beq_iff_eq, h1, Ne.symm h1]

theorem passD3 (s : List Char) :
    replaceAll "&amp;".data "&".data (s.flatMap (entityBlock ['&', qc, ac]))
      = s.flatMap (entityBlock [qc, ac]) := by
  apply replaceAll_flatMap_strong _ _ (by decide)
  intro c
  by_cases h1 : c = '&'
  · subst h1
    left
    exact ⟨by decide, by decide⟩
  · by_cases h4 : c = qc
    · subst h4
      right
      exact ⟨by decide, by decide⟩
    · by_cases h5 : c = ac
      · subst h5
        right
        exact ⟨by decide, by decide⟩
      · right
        have hb : entityBlock ['&', qc, ac] c = [c] := by
          simp [entityBlock, h1, h4, h5]
        have hb' : entityBlock [qc, ac] c = [c] := by
          simp [entityBlock, h4, h5]
        rw [hb, hb']
        refine ⟨?_, rfl⟩
        show blockSafe ['&', 'a', 'm', 'p', ';'] [c] = true
        rw [blockSafe]
        simp [listPrefixOf, listPrefixOf_nil_left, beq_iff_eq, h1, Ne.symm h1]

theorem transferD4 (t : List Char) :
    listPrefixOf "quot;".data (t.flatMap (entityBlock [qc, ac]))
      = listPrefixOf "quot;".data t := by
  apply listPrefixOf_flatMap_transfer _ (entityBlock_ne_nil _)
  · intro a ha
    fin_cases ha <;> decide
  · intro a ha c y ys hB hy
    by_cases h4 : c = qc
    · subst h4
      rw [show entityBlock [qc, ac] qc = '&' :: "quot;".data from by decide] at hB
      injection hB with hY _
      exfalso
      have ha' : a = '&' := hy.symm.trans hY.symm
      subst ha'
      exact absurd ha (by decide)
    · by_cases h5 : c = ac
      · subst h5
        rw [show entityBlock [qc, ac] ac = '&' :: "apos;".data from by decide] at hB
        injection hB with hY _
        exfalso
        have ha' : a = '&' := hy.symm.trans hY.symm
        subst ha'
        exact absurd ha (by decide)
      · have hb : entityBlock [qc, ac] c = [c] := by simp [entityBlock, h4, h5]
        rw [hb] at hB
        injection hB with hY _
        exact hY.trans hy

theorem transferD5 (t : List Char) :
    listPrefixOf "apos;".data (t.flatMap (entityBlock [ac]))
      = listPrefixOf "apos;".data t := by
  apply listPrefixOf_flatMap_transfer _ (entityBlock_ne_nil _)
  · intro a ha
    fin_cases ha <;> decide
  · intro a ha c y ys hB hy
    by_cases h5 : c = ac
    · subst h5
      rw [show entityBlock [ac] ac = '&' :: "apos;".data from by decide] at hB
      injection hB with hY _
      exfalso
      have ha' : a = '&' := hy.symm.trans hY.symm
      subst ha'
      exact absurd ha (by decide)
    · have hb : entityBlock [ac] c = [c] := by simp [entityBlock, h5]
      rw [hb] at hB
      injection hB with hY _
      exact hY.trans hy

theorem passD4 (s : List Char) (hs : listInfixOf "&quot;".data s = false) :
    replaceAll "&quot;".data "\"".data (s.flatMap (entityBlock [qc, ac]))
      = s.flatMap (entityBlock [ac]) := by
  have h : ∀ c, (entityBlock [qc, ac] c = '&' :: "quot;".data ∧ entityBlock [ac] c = "\"".data)
      ∨ (blockSafe ('&' :: "quot;".data) (entityBlock [qc, ac] c) = true
          ∧ entityBlock [ac] c = entityBlock [qc, ac] c)
      ∨ (c = '&' ∧ entityBlock [qc, ac] c = [c] ∧ entityBlock [ac] c = [c]) := by
    intro c
    by_cases h4 : c = qc
    · subst h4
      left
      exact ⟨by decide, by decide⟩
    · by_cases h5 : c = ac
      · subst h5
        right; left
        exact ⟨by decide, by decide⟩
      · by_cases h1 : c = '&'
        · subst h1
          right; right
          exact ⟨rfl, by decide, by decide⟩
        · right; left
          have hb : entityBlock [qc, ac] c = [c] := by simp [entityBlock, h4, h5]
          have hb' : entityBlock [ac] c = [c] := by simp [entityBlock, h5]
          rw [hb, hb']
          refine ⟨?_, rfl⟩
          show blockSafe ('&' :: ['q', 'u', 'o', 't', ';']) [c] = true
          rw [blockSafe]
          simp [listPrefixOf, listPrefixOf_nil_left, beq_iff_eq, h1, Ne.symm h1]
  exact replaceAll_flatMap_guarded '&' "quot;".data "\"".data
    (entityBlock [qc, ac]) (entityBlock [ac]) h transferD4 s hs

theorem passD5 (s : List Char) (hs : listInfixOf "&apos;".data s = false) :
    replaceAll "&apos;".data "'".data (s.flatMap (entityBlock [ac]))
      = s.flatMap (entityBlock []) := by
  have h : ∀ c, (entityBlock [ac] c = '&' :: "apos;".data ∧ entityBlock [] c = "'".data)
      ∨ (blockSafe ('&' :: "apos;".data) (entityBlock [ac] c) = true
          ∧ entityBlock [] c = entityBlock [ac] c)
      ∨ (c = '&' ∧ entityBlock [ac] c = [c] ∧ entityBlock [] c = [c]) := by
    intro c
    by_cases h5 : c = ac
    · subst h5
      left
      exact ⟨by decide, by decide⟩
    · by_cases h1 : c = '&'
      · subst h1
        right; right
        exact ⟨rfl, by decide, by decide⟩
      · right; left
        have hb : entityBlock [ac] c = [c] := by simp [entityBlock, h5]
        have hb' : entityBlock [] c = [c] := by simp [entityBlock]
        rw [hb, hb']
        refine ⟨?_, rfl⟩
        show blockSafe ('&' :: ['a', 'p', 'o', 's', ';']) [c] = true
        rw [blockSafe]
        simp [listPrefixOf, listPrefixOf_nil_left, beq_iff_eq, h1, Ne.symm h1]
  exact replaceAll_flatMap_guarded '&' "apos;".data "'".data
    (entityBlock [ac]) (entityBlock []) h transferD5 s hs

theorem encodeXmlEntities_data (s : String) :
    (encodeXmlEntities s).data = s.data.flatMap (entityBlock ['&', '<', '>', qc, ac]) := by
  show (replaceAll "'".data "&apos;".data
      (replaceAll "\"".data "&quot;".data
        (replaceAll ">".data "&gt;".data
          (replaceAll "<".data "&lt;".data
            (replaceAll "&".data "&amp;".data s.data))))) = _
  conv_lhs => rw [← flatMap_entityBlock_nil s.data]
  rw [passE1, passE2, passE3, passE4, passE5]

/-- C10 counterexample: the decoder is NOT a left inverse of one round of
entity encoding: for `s = "&quot;"` the ampersand is escaped to
`&amp;quot;`, and decoding replaces `&amp;` first so that the freshly
produced `&quot;` text is then double-decoded to `"` — because the
`&quot;`/`&apos;` replacements run AFTER `&amp;`, unlike `&lt;`/`&gt;`. -/
theorem decodeXml_not_leftInverse_cex :
    encodeXmlEntities "&quot;" = "&amp;quot;" ∧
      decodeXmlEntities (encodeXmlEntities "&quot;") = "\"" ∧
      decodeXmlEntities (encodeXmlEntities "&quot;") ≠ "&quot;" := by
  refine ⟨?_, ?_, ?_⟩ <;>
    simp +decide [encodeXmlEntities, decodeXmlEntities, replaceAll]

/-- C10 (amended): `_decodeXmlEntities` is a left inverse of one round of
single-level XML-entity escaping for every string that does not itself
contain the texts `&quot;` or `&apos;`: the fixed order `&lt;`, `&gt;`
before `&amp;` protects those two sequences from double-decoding, but
`&quot;`/`&apos;` are replaced after `&amp;` and do get double-decoded. -/
theorem decodeXml_encodeXml_leftInverse (s : String)
    (h1 : strContains s "&quot;" = false)
    (h2 : strContains s "&apos;" = false) :
    decodeXmlEntities (encodeXmlEntities s) = s := by
  apply String.ext
  show (replaceAll "&apos;".data "'".data
      (replaceAll "&quot;".data "\"".data
        (replaceAll "&amp;".data "&".data
          (replaceAll "&gt;".data ">".data
            (replaceAll "&lt;".data "<".data (encodeXmlEntities s).data))))) = s.data
  rw [encodeXmlEntities_data s, passD1, passD2, passD3,
    passD4 s.data h1, passD5 s.data h2, flatMap_entityBlock_nil]

/-- C10 witness: the round trip at a concrete string containing every
special character and an `&amp;` text (which survives thanks to the
replacement order). -/
theorem decodeXml_encodeXml_leftInverse_witness :
    decodeXmlEntities (encodeXmlEntities "a<b>&amp;c\"d") = "a<b>&amp;c\"d" :=
  decodeXml_encodeXml_leftInverse "a<b>&amp;c\"d" (by decide) (by decide)

end Nasne
